import Mathlib

/-!
Verification of the whiteboard drawing/capture/transform pipeline.

The definitions below are a shallow embedding of the client-side whiteboard
code: the pan/zoom coordinate transform, the touch-gesture state updates, the
idle-capture (debounce) timer logic, the frame buffer with its five-minute
retention window, and the conversation update performed by the tutoring
request.  Screen and world coordinates are modelled over the rationals, so the
algebraic identities of the transform hold exactly rather than up to
floating-point error; timestamps are integers (milliseconds).
-/

namespace Whiteboard

/-- A 2-D point, in screen or world coordinates depending on context. -/
structure Point where
  x : ℚ
  y : ℚ
deriving DecidableEq, Repr

/-- The pan/zoom transform state: `transform.current = { x, y, scale }`.
`x`/`y` are the pan offsets (screen pixels), `scale` the zoom factor. -/
structure Transform where
  x : ℚ
  y : ℚ
  scale : ℚ
deriving DecidableEq, Repr

/-- Source function `screenToWorld` of the transform-based whiteboard component:
`{ x: (x - transform.x) / scale, y: (y - transform.y) / scale }`. -/
def screenToWorld (t : Transform) (sx sy : ℚ) : Point :=
  ⟨(sx - t.x) / t.scale, (sy - t.y) / t.scale⟩

/-- Modelled from the spec: `worldToScreen` is the inverse formula
`(x * scale + panX, y * scale + panY)`; the source only defines
`screenToWorld`, the spec states the round-trip against this inverse. -/
def worldToScreen (t : Transform) (p : Point) : Point :=
  ⟨p.x * t.scale + t.x, p.y * t.scale + t.y⟩

/-- C2: for every transform with positive scale, `screenToWorld` undoes
`worldToScreen` exactly over the rationals. -/
theorem screenToWorld_worldToScreen (t : Transform) (p : Point)
    (h : 0 < t.scale) :
    screenToWorld t (worldToScreen t p).x (worldToScreen t p).y = p := by
  have hs : t.scale ≠ 0 := ne_of_gt h
  cases p with
  | mk px py =>
    simp only [screenToWorld, worldToScreen, Point.mk.injEq]
    constructor <;> field_simp

/-- Witness for C2 at the concrete transform (panX, panY, scale) = (3, -7, 2)
and world point (5, 11). -/
theorem screenToWorld_worldToScreen_witness :
    screenToWorld ⟨3, -7, 2⟩ (worldToScreen ⟨3, -7, 2⟩ ⟨5, 11⟩).x
      (worldToScreen ⟨3, -7, 2⟩ ⟨5, 11⟩).y = ⟨5, 11⟩ :=
  screenToWorld_worldToScreen ⟨3, -7, 2⟩ ⟨5, 11⟩ (by norm_num)

/-- A stroke: `{ points, color, size }`. -/
structure Stroke where
  points : List Point
  color : String
  size : ℚ
deriving DecidableEq, Repr

/-- The mutable refs of the transform-based whiteboard component relevant to
drawing and gestures: `strokes`, `currentStroke`, `isDrawing`, `isGesturing`,
`transform`, `lastTouchDistance`, `lastTouchCenter`, the pending idle-capture
timer (`idleTimer`, its scheduled fire time when pending) and the
conversation `messages` (each message abbreviated to its content string). -/
structure GState where
  strokes : List Stroke
  currentStroke : Option Stroke
  isDrawing : Bool
  isGesturing : Bool
  transform : Transform
  lastTouchDistance : ℚ
  lastTouchCenter : Point
  idleTimer : Option ℤ
  messages : List String
deriving DecidableEq, Repr

/-- Source function `handleMouseDown`: clear any pending idle timer, then begin a stroke at
the transformed pointer position.  `p` is the pointer position already made
canvas-relative (the code subtracts the bounding rectangle offset). -/
def handleMouseDown (s : GState) (p : Point) (color : String) (brushSize : ℚ) :
    GState :=
  { s with idleTimer := none,
           isDrawing := true,
           currentStroke := some ⟨[screenToWorld s.transform p.x p.y], color, brushSize⟩ }

/-- Source function `scheduleCapture`: clear any pending idle timer and start a fresh one
firing 1000 ms from `now` (the 1 s debounce). -/
def scheduleCapture (s : GState) (now : ℤ) : GState :=
  { s with idleTimer := some (now + 1000) }

/-- Source function `handleMouseUp` at time `now`: if a stroke is in progress, finalize it
into the stroke list and schedule the idle capture. -/
def handleMouseUp (s : GState) (now : ℤ) : GState :=
  match s.currentStroke with
  | some cs =>
      if s.isDrawing then
        scheduleCapture
          { s with isDrawing := false,
                   strokes := s.strokes ++ [cs],
                   currentStroke := none } now
      else s
  | none => s

/-- The one-touch branch of `handleTouchStart`: clear any pending idle timer
and begin drawing a stroke at the transformed touch position. -/
def handleTouchStartOne (s : GState) (p : Point) (color : String)
    (brushSize : ℚ) : GState :=
  { s with idleTimer := none,
           isDrawing := true,
           isGesturing := false,
           currentStroke := some ⟨[screenToWorld s.transform p.x p.y], color, brushSize⟩ }

/-- The two-touch branch of `handleTouchStart`: clear any pending idle timer,
stop drawing, discard the in-progress stroke, and enter gesture mode,
recording the touch distance and (canvas-relative) center.  `dist` stands for
the Euclidean distance `getTouchDistance(t1, t2)` the code computes with
`Math.sqrt`; its value is passed in already computed (it is nonnegative, and
zero exactly when the two touches coincide). -/
def handleTouchStartTwo (s : GState) (dist : ℚ) (center : Point) : GState :=
  { s with idleTimer := none,
           isDrawing := false,
           currentStroke := none,
           isGesturing := true,
           lastTouchDistance := dist,
           lastTouchCenter := center }

/-- The gesture (pinch/pan) branch of `handleTouchMove`, taken when
`isGesturing` holds with two active touches: pan by the center delta, then,
when `lastTouchDistance > 0`, re-anchor the pan around the pinch center with
`scaleFactor = dist / lastTouchDistance` and multiply the scale by it;
finally record the new distance and center.  As in `handleTouchStartTwo`,
`dist` is the already-computed Euclidean touch distance and `center` the
canvas-relative touch midpoint. -/
def gestureMove (s : GState) (dist : ℚ) (center : Point) : GState :=
  let dx := center.x - s.lastTouchCenter.x
  let dy := center.y - s.lastTouchCenter.y
  let panned : Transform :=
    ⟨s.transform.x + dx, s.transform.y + dy, s.transform.scale⟩
  let zoomed : Transform :=
    if 0 < s.lastTouchDistance then
      let scaleFactor := dist / s.lastTouchDistance
      ⟨center.x - (center.x - panned.x) * scaleFactor,
       center.y - (center.y - panned.y) * scaleFactor,
       panned.scale * scaleFactor⟩
    else panned
  { s with transform := zoomed,
           lastTouchDistance := dist,
           lastTouchCenter := center }

/-- Source function `clearCanvas` of the transform-based component: empty the stroke list and
the conversation; the transform is deliberately left untouched (the reset is
commented out in the source). -/
def clearCanvas (s : GState) : GState :=
  { s with strokes := [], messages := [] }

/-- Run a sequence of gesture moves (each a touch distance and a touch
center) through `gestureMove`. -/
def gestureMoves (s : GState) (moves : List (ℚ × Point)) : GState :=
  moves.foldl (fun st m => gestureMove st m.1 m.2) s

/-- One gesture move keeps the scale positive provided the new touch
distance is positive (when `lastTouchDistance ≤ 0` the zoom step is skipped
and the scale is unchanged). -/
theorem gestureMove_scale_pos (s : GState) (dist : ℚ) (center : Point)
    (hs : 0 < s.transform.scale) (hd : 0 < dist) :
    0 < (gestureMove s dist center).transform.scale := by
  simp only [gestureMove]
  split
  · exact mul_pos hs (div_pos hd (by assumption))
  · exact hs

/-- C1 (amended): a gesture move with positive scale, positive recorded
`lastTouchDistance` and positive current touch distance moves the world
point that was under the previous pinch center to be exactly under the new
pinch center, and multiplies the scale by `dist / lastTouchDistance` —
exactly, over the rationals. -/
theorem gestureMove_preserves_pinch_center (s : GState) (dist : ℚ)
    (center : Point) (hs : 0 < s.transform.scale)
    (hl : 0 < s.lastTouchDistance) (hd : 0 < dist) :
    screenToWorld (gestureMove s dist center).transform center.x center.y =
      screenToWorld s.transform s.lastTouchCenter.x s.lastTouchCenter.y ∧
    (gestureMove s dist center).transform.scale =
      s.transform.scale * (dist / s.lastTouchDistance) := by
  have hs0 : s.transform.scale ≠ 0 := ne_of_gt hs
  have hl0 : s.lastTouchDistance ≠ 0 := ne_of_gt hl
  have hd0 : dist ≠ 0 := ne_of_gt hd
  simp only [gestureMove, if_pos hl, screenToWorld, Point.mk.injEq]
  refine ⟨⟨?_, ?_⟩, trivial⟩ <;> field_simp <;> ring

/-- Witness for C1: the spec scenario — pinch from distance 100 to 200 at
fixed screen center (50, 50), starting from scale 1 and pan (0, 0).  The
resulting scale is 1 * (200 / 100) = 2 and the world point under (50, 50) is
preserved. -/
theorem gestureMove_preserves_pinch_center_witness :
    screenToWorld
        (gestureMove ⟨[], none, false, true, ⟨0, 0, 1⟩, 100, ⟨50, 50⟩, none, []⟩
          200 ⟨50, 50⟩).transform 50 50 =
      screenToWorld (⟨0, 0, 1⟩ : Transform) 50 50 ∧
    (gestureMove ⟨[], none, false, true, ⟨0, 0, 1⟩, 100, ⟨50, 50⟩, none, []⟩
        200 ⟨50, 50⟩).transform.scale = 1 * (200 / 100) :=
  gestureMove_preserves_pinch_center
    ⟨[], none, false, true, ⟨0, 0, 1⟩, 100, ⟨50, 50⟩, none, []⟩ 200 ⟨50, 50⟩
    (by norm_num) (by norm_num) (by norm_num)

/-- Counterexample for C1 as stated: a gesture move with
`lastTouchDistance = 100 > 0` but both touches at the same screen point
(distance 0, a position the claim quantifies over) collapses the scale to 0,
and the world point under the pinch center (50, 50) is not preserved — in
the source the division by the zero scale blows up; in this exact embedding
the round-trip value visibly differs. -/
theorem gestureMove_zero_distance_counterexample :
    0 < (⟨[], none, false, true, ⟨0, 0, 1⟩, 100, ⟨50, 50⟩, none, []⟩ :
          GState).lastTouchDistance ∧
    (gestureMove ⟨[], none, false, true, ⟨0, 0, 1⟩, 100, ⟨50, 50⟩, none, []⟩
        0 ⟨50, 50⟩).transform.scale = 0 ∧
    screenToWorld
        (gestureMove ⟨[], none, false, true, ⟨0, 0, 1⟩, 100, ⟨50, 50⟩, none, []⟩
          0 ⟨50, 50⟩).transform 50 50 ≠
      screenToWorld (⟨0, 0, 1⟩ : Transform) 50 50 := by
  refine ⟨by norm_num, ?_, ?_⟩ <;>
    simp [gestureMove, screenToWorld, Point.mk.injEq]

/-- C3 (amended): starting from a transform with positive scale, any
sequence of gesture moves in which every move has positive touch distance
keeps the scale strictly positive. -/
theorem gestureMoves_scale_pos (moves : List (ℚ × Point)) (s : GState)
    (hs : 0 < s.transform.scale) (hm : ∀ m ∈ moves, 0 < m.1) :
    0 < (gestureMoves s moves).transform.scale := by
  induction moves generalizing s with
  | nil => exact hs
  | cons m ms ih =>
      exact ih (gestureMove s m.1 m.2)
        (gestureMove_scale_pos s m.1 m.2 hs (hm m (List.mem_cons_self m ms)))
        (fun m' hm' => hm m' (List.mem_cons_of_mem m hm'))

/-- Witness for C3: two concrete gesture moves (zoom in then out) from scale
1 leave the scale positive. -/
theorem gestureMoves_scale_pos_witness :
    0 < (gestureMoves
          ⟨[], none, false, true, ⟨0, 0, 1⟩, 100, ⟨50, 50⟩, none, []⟩
          [(200, ⟨50, 50⟩), (50, ⟨60, 40⟩)]).transform.scale :=
  gestureMoves_scale_pos [(200, ⟨50, 50⟩), (50, ⟨60, 40⟩)]
    ⟨[], none, false, true, ⟨0, 0, 1⟩, 100, ⟨50, 50⟩, none, []⟩
    (by norm_num) (by decide)

/-- Counterexample for C3 as stated: from scale 1 (> 0) and recorded
`lastTouchDistance = 100`, one gesture move with the two pointers at the
same screen location (distance 0 — the zoom guard only checks
`lastTouchDistance > 0`) multiplies the scale by 0/100, so the resulting
scale is 0, not positive. -/
theorem gestureMove_scale_zero_counterexample :
    0 < (⟨[], none, false, true, ⟨3, 4, 1⟩, 100, ⟨50, 50⟩, none, []⟩ :
          GState).transform.scale ∧
    ¬ 0 < (gestureMove
            ⟨[], none, false, true, ⟨3, 4, 1⟩, 100, ⟨50, 50⟩, none, []⟩
            0 ⟨50, 50⟩).transform.scale := by
  refine ⟨by norm_num, ?_⟩
  simp [gestureMove]

/-- C7: a second touch going down while drawing (two-touch branch of
`handleTouchStart`) discards the in-progress stroke rather than finalizing
it: the mode becomes gesturing, the current stroke becomes `none`, drawing
stops, and the finished-stroke list is unchanged. -/
theorem handleTouchStartTwo_discards_stroke (s : GState) (st : Stroke)
    (dist : ℚ) (center : Point)
    (_h1 : s.isDrawing = true) (_h2 : s.currentStroke = some st) :
    (handleTouchStartTwo s dist center).isGesturing = true ∧
    (handleTouchStartTwo s dist center).currentStroke = none ∧
    (handleTouchStartTwo s dist center).isDrawing = false ∧
    (handleTouchStartTwo s dist center).strokes = s.strokes := by
  simp [handleTouchStartTwo]

/-- Witness for C7 at a concrete drawing state with an in-progress
one-point stroke. -/
theorem handleTouchStartTwo_discards_stroke_witness :
    (handleTouchStartTwo
        ⟨[], some ⟨[⟨1, 2⟩], "#000000", 3⟩, true, false, ⟨0, 0, 1⟩, 0,
          ⟨0, 0⟩, none, []⟩ 10 ⟨5, 5⟩).isGesturing = true ∧
    (handleTouchStartTwo
        ⟨[], some ⟨[⟨1, 2⟩], "#000000", 3⟩, true, false, ⟨0, 0, 1⟩, 0,
          ⟨0, 0⟩, none, []⟩ 10 ⟨5, 5⟩).currentStroke = none ∧
    (handleTouchStartTwo
        ⟨[], some ⟨[⟨1, 2⟩], "#000000", 3⟩, true, false, ⟨0, 0, 1⟩, 0,
          ⟨0, 0⟩, none, []⟩ 10 ⟨5, 5⟩).isDrawing = false ∧
    (handleTouchStartTwo
        ⟨[], some ⟨[⟨1, 2⟩], "#000000", 3⟩, true, false, ⟨0, 0, 1⟩, 0,
          ⟨0, 0⟩, none, []⟩ 10 ⟨5, 5⟩).strokes =
      (⟨[], some ⟨[⟨1, 2⟩], "#000000", 3⟩, true, false, ⟨0, 0, 1⟩, 0,
          ⟨0, 0⟩, none, []⟩ : GState).strokes :=
  handleTouchStartTwo_discards_stroke
    ⟨[], some ⟨[⟨1, 2⟩], "#000000", 3⟩, true, false, ⟨0, 0, 1⟩, 0,
      ⟨0, 0⟩, none, []⟩ ⟨[⟨1, 2⟩], "#000000", 3⟩ 10 ⟨5, 5⟩ rfl rfl

/-- C10: clearing the canvas empties the stroke list but leaves the
pan/zoom transform exactly as it was. -/
theorem clearCanvas_preserves_transform (s : GState) :
    (clearCanvas s).strokes = [] ∧ (clearCanvas s).transform = s.transform :=
  ⟨rfl, rfl⟩

/-- A frame-buffer entry: `{ imageData, timestamp }`.  The raster encoding is
opaque; timestamps are `Date.now()` milliseconds. -/
structure Frame where
  imageData : String
  timestamp : ℤ
deriving DecidableEq, Repr

/-- The retention window: 5 * 60 * 1000 ms. -/
def retentionMs : ℤ := 5 * 60 * 1000

/-- The frame-buffer append (`captureFrame` / the `setFrames` updater of
`startFrameCapture`): keep only previous frames with
`timestamp > now - 5 minutes`, then append the new frame stamped `now`. -/
def captureFrame (now : ℤ) (imageData : String) (prev : List Frame) :
    List Frame :=
  let fiveMinutesAgo := now - retentionMs
  prev.filter (fun f => fiveMinutesAgo < f.timestamp) ++ [⟨imageData, now⟩]

/-- C6: after any append, every retained frame lies strictly within the
trailing five-minute window and the newly appended frame is last. -/
theorem captureFrame_retention (now : ℤ) (imageData : String)
    (prev : List Frame) (f : Frame)
    (hf : f ∈ captureFrame now imageData prev) :
    now - retentionMs < f.timestamp ∧
    (captureFrame now imageData prev).getLast? = some ⟨imageData, now⟩ := by
  constructor
  · simp only [captureFrame, List.mem_append, List.mem_filter,
      List.mem_singleton, decide_eq_true_eq] at hf
    rcases hf with ⟨_, h⟩ | rfl
    · exact h
    · show now - retentionMs < now
      have : (0 : ℤ) < retentionMs := by norm_num [retentionMs]
      omega
  · simp [captureFrame]

/-- Witness for C6: appending at time 1000000 over a buffer holding a stale
frame (timestamp 5) and a recent one (timestamp 999999). -/
theorem captureFrame_retention_witness :
    (1000000 : ℤ) - retentionMs < (⟨"new", 1000000⟩ : Frame).timestamp ∧
    (captureFrame 1000000 "new" [⟨"old", 5⟩, ⟨"recent", 999999⟩]).getLast? =
      some ⟨"new", 1000000⟩ :=
  captureFrame_retention 1000000 "new" [⟨"old", 5⟩, ⟨"recent", 999999⟩]
    ⟨"new", 1000000⟩ (by simp [captureFrame])

/-- The pointer/timer events driving the raster-canvas whiteboard component:
pointer-down, pointer-move, pointer-up, the idle-capture timeout callback
being delivered at its scheduled time, and the frame-capture interval
callback firing. -/
inductive WEvent where
  | down (t : ℤ)
  | move (t : ℤ)
  | up (t : ℤ)
  | fire (t : ℤ)
  | tick (t : ℤ)
deriving DecidableEq, Repr

/-- The observable state of the raster-canvas whiteboard component:
`isDrawing`, `dragStartTime`, the pending idle-capture timeout (scheduled
fire time when pending), the times at which `captureAndSend` was invoked,
and the frame buffer. -/
structure WState where
  isDrawing : Bool
  dragStartTime : ℤ
  idleTimer : Option ℤ
  captures : List ℤ
  frames : List Frame
deriving DecidableEq, Repr

/-- Initial component state: not drawing, no pending timer, no captures, an
empty frame buffer. -/
def initW : WState := ⟨false, 0, none, [], []⟩

/-- One event step of the raster-canvas whiteboard:
`startDrawing` clears any pending idle timer, records the drag start and
starts drawing; `draw` only paints pixels (none of the modelled fields
change); `stopDrawing` ends drawing and schedules the 1 s idle capture only
when the drag lasted more than 500 ms; a timeout callback delivered at the
pending timer's scheduled time performs the capture and clears the timer (a
cleared or rescheduled timeout is never delivered); an interval callback
appends to the frame buffer via `captureFrame`. -/
def step (s : WState) (e : WEvent) : WState :=
  match e with
  | .down t => { s with idleTimer := none, isDrawing := true, dragStartTime := t }
  | .move _ => s
  | .up t =>
      if s.isDrawing then
        let s1 := { s with isDrawing := false }
        if 500 < t - s.dragStartTime then
          { s1 with idleTimer := some (t + 1000) }
        else s1
      else s
  | .fire t =>
      match s.idleTimer with
      | some ft =>
          if ft = t then
            { s with idleTimer := none, captures := s.captures ++ [t] }
          else s
      | none => s
  | .tick t => { s with frames := captureFrame t "" s.frames }

/-- Run a sequence of events through `step`. -/
def run (s : WState) (es : List WEvent) : WState := es.foldl step s

/-- C4 (amended): in the raster-canvas component, a stroke finalized by
pointer-up restarts the idle timer only when the drag lasted more than
500 ms; in that case, with no further input, the timer fires once and
exactly one capture occurs (further deliveries are no-ops).  In the
transform-based component, `handleMouseUp` on an in-progress stroke always
schedules the capture. -/
theorem stopDrawing_schedules_capture (t0 t1 t2 : ℤ) (gs : GState)
    (cs : Stroke) (now : ℤ) (h : 500 < t1 - t0)
    (hgs1 : gs.isDrawing = true) (hgs2 : gs.currentStroke = some cs) :
    (run initW [WEvent.down t0, WEvent.up t1]).idleTimer = some (t1 + 1000) ∧
    (run initW [WEvent.down t0, WEvent.up t1,
        WEvent.fire (t1 + 1000)]).captures = [t1 + 1000] ∧
    (run initW [WEvent.down t0, WEvent.up t1, WEvent.fire (t1 + 1000),
        WEvent.fire t2]).captures = [t1 + 1000] ∧
    (handleMouseUp gs now).idleTimer = some (now + 1000) := by
  refine ⟨?_, ?_, ?_, ?_⟩
  · simp [run, step, initW, h]
  · simp [run, step, initW, h]
  · simp [run, step, initW, h]
  · simp [handleMouseUp, scheduleCapture, hgs1, hgs2]

/-- Witness for C4: a stroke drawn from t = 0 to t = 600 (duration 600 ms
> 500 ms), timer fired at 1600; a stray later delivery at 99999 adds
nothing; the transform-based mouse-up schedules for now + 1000. -/
theorem stopDrawing_schedules_capture_witness :
    (run initW [WEvent.down 0, WEvent.up 600]).idleTimer = some (600 + 1000) ∧
    (run initW [WEvent.down 0, WEvent.up 600,
        WEvent.fire (600 + 1000)]).captures = [600 + 1000] ∧
    (run initW [WEvent.down 0, WEvent.up 600, WEvent.fire (600 + 1000),
        WEvent.fire 99999]).captures = [600 + 1000] ∧
    (handleMouseUp
        ⟨[], some ⟨[⟨0, 0⟩], "#000000", 3⟩, true, false, ⟨0, 0, 1⟩, 0,
          ⟨0, 0⟩, none, []⟩ 600).idleTimer = some (600 + 1000) :=
  stopDrawing_schedules_capture 0 600 99999
    ⟨[], some ⟨[⟨0, 0⟩], "#000000", 3⟩, true, false, ⟨0, 0, 1⟩, 0,
      ⟨0, 0⟩, none, []⟩ ⟨[⟨0, 0⟩], "#000000", 3⟩ 600 (by norm_num) rfl rfl

/-- Counterexample for C4 as stated: a stroke drawn from t = 0 to t = 300
(duration 300 ms, not more than 500 ms) leaves no pending idle timer, and no
capture ever occurs for it — the claim's "regardless of how long the stroke
took to draw" fails in the raster-canvas component. -/
theorem short_stroke_no_capture_counterexample :
    (run initW [WEvent.down 0, WEvent.up 300]).idleTimer = none ∧
    (run initW [WEvent.down 0, WEvent.up 300,
        WEvent.fire 1300]).captures = [] := by
  decide

/-- A timeout delivery is a no-op when no idle timer is pending. -/
theorem fire_noop_of_no_timer (s : WState) (t : ℤ) (h : s.idleTimer = none) :
    step s (.fire t) = s := by
  simp [step, h]

/-- Any number of timeout deliveries are no-ops when no idle timer is
pending. -/
theorem fires_noop_of_no_timer (fires : List ℤ) (s : WState)
    (h : s.idleTimer = none) :
    run s (fires.map WEvent.fire) = s := by
  induction fires with
  | nil => rfl
  | cons f fs ih =>
      have hstep : step s (.fire f) = s := fire_noop_of_no_timer s f h
      calc run s ((f :: fs).map WEvent.fire)
          = run (step s (.fire f)) (fs.map WEvent.fire) := rfl
        _ = run s (fs.map WEvent.fire) := by rw [hstep]
        _ = s := ih

/-- C5: a pointer-down clears any pending idle timer without invoking a
capture, and the cancelled timer can never fire afterwards: any sequence of
timeout deliveries after the pointer-down leaves the capture list exactly as
it was.  Likewise `handleMouseDown` of the transform-based component clears
the pending timer. -/
theorem pointerDown_cancels_pending_capture (s : WState) (t : ℤ)
    (fires : List ℤ) (gs : GState) (p : Point) (color : String)
    (brushSize : ℚ) :
    (step s (.down t)).idleTimer = none ∧
    (step s (.down t)).captures = s.captures ∧
    (run (step s (.down t)) (fires.map WEvent.fire)).captures = s.captures ∧
    (handleMouseDown gs p color brushSize).idleTimer = none := by
  refine ⟨rfl, by simp [step], ?_, rfl⟩
  rw [fires_noop_of_no_timer fires (step s (.down t)) rfl]
  simp [step]

/-- The fire time of the i-th callback of the 500 ms frame-capture interval
started at `t0` (`setInterval(..., 500)` first fires 500 ms after start). -/
def tickTime (t0 : ℤ) (i : ℕ) : ℤ := t0 + 500 * (i + 1)

/-- The event sequence of the first `n` interval callbacks. -/
def intervalTicks (t0 : ℤ) (n : ℕ) : List WEvent :=
  (List.range n).map (fun i => WEvent.tick (tickTime t0 i))

/-- Two frames respect the minimum inter-capture spacing of 500 ms. -/
def spaced (a b : Frame) : Prop := a.timestamp + 500 ≤ b.timestamp

/-- Running one more interval callback is a single `step` on the previous
run. -/
theorem run_intervalTicks_succ (t0 : ℤ) (n : ℕ) :
    run initW (intervalTicks t0 (n + 1)) =
      step (run initW (intervalTicks t0 n)) (WEvent.tick (tickTime t0 n)) := by
  simp [run, intervalTicks, List.range_succ]

/-- After `n` interval callbacks the frame buffer is pairwise 500 ms spaced
and every frame is stamped no later than the last callback. -/
theorem intervalTicks_frames_spaced (t0 : ℤ) (n : ℕ) :
    List.Pairwise spaced (run initW (intervalTicks t0 n)).frames ∧
    ∀ f ∈ (run initW (intervalTicks t0 n)).frames,
      f.timestamp ≤ t0 + 500 * n := by
  induction n with
  | zero =>
      constructor
      · simp [run, intervalTicks, initW]
      · simp [run, intervalTicks, initW]
  | succ n ih =>
      obtain ⟨hp, hb⟩ := ih
      rw [run_intervalTicks_succ]
      simp only [step, captureFrame]
      constructor
      · rw [List.pairwise_append]
        refine ⟨hp.sublist (List.filter_sublist _), List.pairwise_singleton _ _, ?_⟩
        intro a ha b hbmem
        have ha' : a ∈ (run initW (intervalTicks t0 n)).frames :=
          List.mem_of_mem_filter ha
        have haub := hb a ha'
        simp only [List.mem_singleton] at hbmem
        subst hbmem
        show a.timestamp + 500 ≤ tickTime t0 n
        simp only [tickTime]
        linarith
      · intro f hf
        rcases List.mem_append.mp hf with hmem | hmem
        · have : f ∈ (run initW (intervalTicks t0 n)).frames :=
            List.mem_of_mem_filter hmem
          have := hb f this
          push_cast at this ⊢
          linarith
        · simp only [List.mem_singleton] at hmem
          subst hmem
          show tickTime t0 n ≤ t0 + 500 * ((n : ℤ) + 1)
          simp only [tickTime]
          linarith

/-- C8 (amended): in the raster-canvas component, pointer-move events never
append to the frame buffer; frames are appended only by the 500 ms interval
callback, whose consecutive fire times are exactly 500 ms apart, so after
any number of callbacks the buffered frames are pairwise at least 500 ms
apart. -/
theorem frame_capture_min_spacing (s : WState) (t t0 : ℤ) (n i : ℕ) :
    (step s (.move t)).frames = s.frames ∧
    tickTime t0 (i + 1) - tickTime t0 i = 500 ∧
    List.Pairwise spaced (run initW (intervalTicks t0 n)).frames := by
  refine ⟨rfl, ?_, (intervalTicks_frames_spaced t0 n).1⟩
  simp only [tickTime]
  push_cast
  ring

/-- The refs of the hybrid whiteboard variant relevant to per-move frame
capture: `isDrawing`, `shouldCaptureRef`, `lastPoint`, and the frame
buffer. -/
structure P9State where
  isDrawing : Bool
  shouldCapture : Bool
  lastPoint : Option Point
  frames : List Frame
deriving DecidableEq, Repr

/-- The hybrid variant's `startDrawing`: begin drawing, record the pointer,
and mark that frames should be captured. -/
def p9StartDrawing (s : P9State) (p : Point) : P9State :=
  { s with isDrawing := true, lastPoint := some p, shouldCapture := true }

/-- The hybrid variant's `draw` at time `now`: bail out unless drawing with a
recorded last point; otherwise paint the segment, record the new point, and
— when `shouldCapture` is set — append a frame via `captureFrame`, keeping
`shouldCapture` set for continuous strokes. -/
def p9Draw (s : P9State) (now : ℤ) (p : Point) : P9State :=
  match s.lastPoint with
  | none => s
  | some _ =>
      if s.isDrawing then
        let s1 := { s with lastPoint := some p }
        if s1.shouldCapture then
          { s1 with frames := captureFrame now "" s1.frames,
                    shouldCapture := true }
        else s1
      else s

/-- Counterexample for C8 as stated: in the hybrid variant, every
pointer-move event appends a frame, so two moves 10 ms apart (at t = 100 and
t = 110) leave two consecutive frames only 10 ms apart — far below the
claimed 500 ms minimum inter-capture spacing. -/
theorem p9_draw_oversamples_counterexample :
    ((p9Draw (p9Draw (p9StartDrawing ⟨false, false, none, []⟩ ⟨0, 0⟩)
        100 ⟨1, 1⟩) 110 ⟨2, 2⟩).frames.map Frame.timestamp = [100, 110]) ∧
    (110 : ℤ) - 100 < 500 := by
  constructor
  · rfl
  · norm_num

/-- Message roles of the tutoring conversation. -/
inductive Role where
  | user
  | model
deriving DecidableEq, Repr

/-- A conversation message `{ role, content, id }`; for a user message the
content is the captured raster. -/
structure Msg where
  role : Role
  content : String
  id : String
deriving DecidableEq, Repr

/-- The effect of `captureAndSend` on the conversation history: the user
message holding the raster is appended optimistically before the request;
on a successful response the model reply is appended; on failure (network
error or non-OK response, both landing in the catch block) nothing further
happens, so the optimistic user message stays.  `response` is `some text`
when the request succeeds, `none` when it fails. -/
def captureAndSend (history : List Msg) (imageData msgId aiId : String)
    (response : Option String) : List Msg :=
  let withUser := history ++ [⟨Role.user, imageData, msgId⟩]
  match response with
  | some text => withUser ++ [⟨Role.model, text, aiId⟩]
  | none => withUser

/-- C9 (amended): when the tutoring request fails, no model reply is added
and no frame is touched, but the conversation does not return to its prior
state: the optimistically appended user message remains, so the history
equals its previous value plus that one user message. -/
theorem captureAndSend_failure (history : List Msg)
    (imageData msgId aiId : String) :
    captureAndSend history imageData msgId aiId none =
      history ++ [⟨Role.user, imageData, msgId⟩] ∧
    (captureAndSend history imageData msgId aiId none).filter
        (fun m => m.role == Role.model) =
      history.filter (fun m => m.role == Role.model) ∧
    captureAndSend history imageData msgId aiId none ≠ history := by
  refine ⟨rfl, ?_, ?_⟩
  · simp [captureAndSend]
  · intro h
    have := congrArg List.length h
    simp [captureAndSend] at this

/-- Counterexample for C9 as stated: starting from an empty history, a
failed request leaves the history holding the optimistic user message, not
the empty history it had before the attempt. -/
theorem captureAndSend_failure_counterexample :
    captureAndSend [] "raster" "1" "2" none ≠ [] := by
  simp [captureAndSend]

end Whiteboard
